import Mathlib

/-!
Shallow embedding of the daikin-aircon-jslib connector (src/connector.ts).

JavaScript numbers are modelled exactly as decimal values `m / 10^t`
(constructor `JsNum.dec`) plus `NaN`; this covers every value produced by
the library's `parseInt`/`parseFloat` coercions on decimal text.  Binary
floating point rounding and the `Infinity` literal are outside the model
and are noted where relevant.  Strings are modelled through their
character lists (`String.data`); the appliance protocol is plain ASCII.
-/

/-- Model of a JavaScript number as produced by `parseInt` / `parseFloat`
on decimal text: either `NaN` or the exact decimal `m / 10^t`. -/
inductive JsNum : Type
  | nan : JsNum
  | dec : ℤ → ℕ → JsNum
deriving DecidableEq, Repr

/-- Numeric value of a `JsNum` (`none` for `NaN`). -/
def jsNumVal : JsNum → Option ℚ
  | .nan => none
  | .dec m t => some ((m : ℚ) / 10 ^ t)

/-- Model of a JavaScript primitive value as it flows through the
connector: `null`, `undefined`, strings, numbers and booleans. -/
inductive JSVal : Type
  | null : JSVal
  | undefined : JSVal
  | str : String → JSVal
  | num : JsNum → JSVal
  | bool : Bool → JSVal
deriving DecidableEq, Repr

/-- JavaScript loose comparison `x == null`, true exactly for `null` and
`undefined`. -/
def looseNullB : JSVal → Bool
  | .null => true
  | .undefined => true
  | _ => false

/-- JavaScript strict equality `===` restricted to the primitive values of
the model.  Numbers compare by numeric value with `NaN === NaN` false;
values of different types are never strictly equal. -/
def jsStrictEqB : JSVal → JSVal → Bool
  | .num a, .num b =>
    match jsNumVal a, jsNumVal b with
    | some x, some y => x == y
    | _, _ => false
  | .str a, .str b => a == b
  | .bool a, .bool b => a == b
  | .null, .null => true
  | .undefined, .undefined => true
  | _, _ => false

/-- The decimal digit characters, used to render numbers.  Only ever
applied to arguments below ten. -/
def digitChar (d : ℕ) : Char :=
  if d = 0 then '0' else if d = 1 then '1' else if d = 2 then '2'
  else if d = 3 then '3' else if d = 4 then '4' else if d = 5 then '5'
  else if d = 6 then '6' else if d = 7 then '7' else if d = 8 then '8' else '9'

/-- Decimal digit test, `'0' ≤ c ≤ '9'` by code point. -/
def isDigitJS (c : Char) : Bool := 48 ≤ c.toNat && c.toNat ≤ 57

/-- Numeric value of a digit character. -/
def digitVal (c : Char) : ℕ := c.toNat - 48

/-- The characters JavaScript `parseInt`/`parseFloat` skip as leading
whitespace (ASCII subset of the trimmed set). -/
def isSpaceJS (c : Char) : Bool := c == ' ' || c == '\t' || c == '\n' || c == '\r'

/-- Value of a most-significant-first digit string. -/
def digitsVal (l : List Char) : ℕ := l.foldl (fun x c => 10 * x + digitVal c) 0

/-- Decimal digits of a natural number, most significant first
(`["0"]` for zero), as printed by JavaScript string coercion. -/
def natDigits (n : ℕ) : List Char :=
  if _h : n < 10 then [digitChar n]
  else natDigits (n / 10) ++ [digitChar (n % 10)]
  termination_by n
  decreasing_by exact Nat.div_lt_self (by omega) (by omega)

/-- Exactly `t` decimal digits of `n` (for `n < 10^t`), most significant
first, used for the fractional part of a decimal rendering. -/
def padDigits : ℕ → ℕ → List Char
  | 0, _ => []
  | t + 1, n => digitChar (n / 10 ^ t) :: padDigits t (n % 10 ^ t)

theorem isDigitJS_digitChar (d : ℕ) : isDigitJS (digitChar d) = true := by
  unfold digitChar
  split_ifs <;> decide

theorem digitVal_digitChar {d : ℕ} (h : d < 10) : digitVal (digitChar d) = d := by
  interval_cases d <;> decide

theorem digitsVal_foldl (l : List Char) (a : ℕ) :
    l.foldl (fun x c => 10 * x + digitVal c) a = a * 10 ^ l.length + digitsVal l := by
  induction l generalizing a with
  | nil => simp [digitsVal]
  | cons c l ih =>
    have h1 : digitsVal (c :: l) = l.foldl (fun x c => 10 * x + digitVal c) (digitVal c) := by
      simp [digitsVal]
    simp only [List.foldl_cons]
    rw [ih, h1, ih (digitVal c), List.length_cons]
    ring

theorem digitsVal_append_singleton (l : List Char) (c : Char) :
    digitsVal (l ++ [c]) = 10 * digitsVal l + digitVal c := by
  unfold digitsVal
  rw [List.foldl_append]
  rfl

theorem natDigits_ne_nil (n : ℕ) : natDigits n ≠ [] := by
  rw [natDigits]
  split
  · simp
  · simp

theorem natDigits_all_digits (n : ℕ) : ∀ c ∈ natDigits n, isDigitJS c = true := by
  induction n using Nat.strong_induction_on with
  | _ n ih =>
    rw [natDigits]
    split
    · intro c hc
      simp only [List.mem_singleton] at hc
      subst hc
      exact isDigitJS_digitChar n
    · intro c hc
      rcases List.mem_append.mp hc with h | h
      · exact ih (n / 10) (Nat.div_lt_self (by omega) (by omega)) c h
      · simp only [List.mem_singleton] at h
        subst h
        exact isDigitJS_digitChar _

theorem digitsVal_natDigits (n : ℕ) : digitsVal (natDigits n) = n := by
  induction n using Nat.strong_induction_on with
  | _ n ih =>
    rw [natDigits]
    split
    · rename_i h
      show 10 * 0 + digitVal (digitChar n) = n
      rw [digitVal_digitChar h]
      omega
    · rename_i h
      rw [digitsVal_append_singleton, ih (n / 10) (Nat.div_lt_self (by omega) (by omega)),
        digitVal_digitChar (Nat.mod_lt _ (by omega))]
      omega

theorem padDigits_length (t n : ℕ) : (padDigits t n).length = t := by
  induction t generalizing n with
  | zero => rfl
  | succ t ih => simp [padDigits, ih]

theorem padDigits_all_digits (t n : ℕ) : ∀ c ∈ padDigits t n, isDigitJS c = true := by
  induction t generalizing n with
  | zero => simp [padDigits]
  | succ t ih =>
    intro c hc
    rcases hc with _ | ⟨_, hc⟩
    · exact isDigitJS_digitChar _
    · exact ih _ c hc

theorem digitsVal_padDigits {t n : ℕ} (h : n < 10 ^ t) : digitsVal (padDigits t n) = n := by
  induction t generalizing n with
  | zero =>
    have : n = 0 := by simpa using h
    simp [padDigits, digitsVal, this]
  | succ t ih =>
    have hd : n / 10 ^ t < 10 := by
      rw [Nat.div_lt_iff_lt_mul (Nat.pos_pow_of_pos t (by omega))]
      calc n < 10 ^ (t + 1) := h
        _ = 10 * 10 ^ t := by ring
        _ ≤ 10 * 10 ^ t := le_rfl
    have hm : n % 10 ^ t < 10 ^ t := Nat.mod_lt _ (Nat.pos_pow_of_pos t (by omega))
    have h1 : digitsVal (digitChar (n / 10 ^ t) :: padDigits t (n % 10 ^ t)) =
        (padDigits t (n % 10 ^ t)).foldl (fun x c => 10 * x + digitVal c)
          (digitVal (digitChar (n / 10 ^ t))) := by
      simp [digitsVal]
    rw [padDigits, h1, digitsVal_foldl, padDigits_length, ih hm, digitVal_digitChar hd]
    have h2 := Nat.div_add_mod n (10 ^ t)
    have h3 : n / 10 ^ t * 10 ^ t = 10 ^ t * (n / 10 ^ t) := Nat.mul_comm _ _
    omega

theorem takeWhile_append_of_all {p : Char → Bool} {l : List Char} (r : List Char)
    (h : ∀ c ∈ l, p c = true) : (l ++ r).takeWhile p = l ++ r.takeWhile p := by
  induction l with
  | nil => simp
  | cons c l ih =>
    have hc : p c = true := h c (by simp)
    simp only [List.cons_append, List.takeWhile_cons, hc, if_true]
    rw [ih fun c hc => h c (by simp [hc])]

theorem dropWhile_append_of_all {p : Char → Bool} {l : List Char} (r : List Char)
    (h : ∀ c ∈ l, p c = true) : (l ++ r).dropWhile p = r.dropWhile p := by
  induction l with
  | nil => simp
  | cons c l ih =>
    have hc : p c = true := h c (by simp)
    simp only [List.cons_append, List.dropWhile_cons, hc, if_true]
    exact ih fun c hc => h c (by simp [hc])

theorem takeWhile_of_all {p : Char → Bool} {l : List Char}
    (h : ∀ c ∈ l, p c = true) : l.takeWhile p = l := by
  have := takeWhile_append_of_all (p := p) [] h
  simpa using this

theorem dropWhile_of_all {p : Char → Bool} {l : List Char}
    (h : ∀ c ∈ l, p c = true) : l.dropWhile p = [] := by
  have := dropWhile_append_of_all (p := p) [] h
  simpa using this

theorem takeWhile_cons_of_neg {p : Char → Bool} {c : Char} (l : List Char)
    (h : p c = false) : (c :: l).takeWhile p = [] := by
  simp [List.takeWhile_cons, h]

theorem dropWhile_cons_of_neg {p : Char → Bool} {c : Char} (l : List Char)
    (h : p c = false) : (c :: l).dropWhile p = c :: l := by
  simp [List.dropWhile_cons, h]

theorem isSpaceJS_of_digit {c : Char} (h : isDigitJS c = true) : isSpaceJS c = false := by
  simp only [isDigitJS, Bool.and_eq_true, decide_eq_true_eq] at h
  simp only [isSpaceJS, Bool.or_eq_false_iff, beq_eq_false_iff_ne, ne_eq]
  refine ⟨⟨⟨?_, ?_⟩, ?_⟩, ?_⟩ <;>
    (intro hc; subst hc; revert h; decide)

theorem digit_ne_special {c : Char} (h : isDigitJS c = true) :
    c ≠ '-' ∧ c ≠ '+' ∧ c ≠ '.' ∧ c ≠ 'e' ∧ c ≠ 'E' := by
  simp only [isDigitJS, Bool.and_eq_true, decide_eq_true_eq] at h
  refine ⟨?_, ?_, ?_, ?_, ?_⟩ <;> (intro hc; subst hc; revert h; decide)

/-- Decimal string of a natural number, as JavaScript string coercion
prints it. -/
def natToString (n : ℕ) : String := String.mk (natDigits n)

/-- Decimal string of an integer, as JavaScript string coercion prints
it (canonical form, no leading zeros, no plus sign). -/
def intToString (k : ℤ) : String :=
  if k < 0 then "-" ++ natToString k.natAbs else natToString k.toNat

theorem string_data_append (a b : String) : (a ++ b).data = a.data ++ b.data := by
  cases a
  cases b
  rfl

/-- Optional leading sign of a numeric literal, as consumed by
`parseInt` and `parseFloat`. -/
def splitSign (cs : List Char) : ℤ × List Char :=
  match cs with
  | [] => (1, [])
  | c :: rest =>
    if c = '-' then (-1, rest) else if c = '+' then (1, rest) else (1, c :: rest)

/-- Optional fractional part `.digits` of a `parseFloat` literal:
returns the fraction digits and the remaining characters. -/
def splitFrac (cs : List Char) : List Char × List Char :=
  match cs with
  | [] => ([], [])
  | c :: rest =>
    if c = '.' then (rest.takeWhile isDigitJS, rest.dropWhile isDigitJS) else ([], c :: rest)

/-- Apply an optional exponent part (after the mantissa) the way
`parseFloat` does: `e`/`E`, optional sign, digits; a missing digit run
leaves the mantissa unchanged. -/
def applyExp (m : ℤ) (t : ℕ) (cs : List Char) : JsNum :=
  let sp := splitSign cs
  let ed := sp.2.takeWhile isDigitJS
  if ed = [] then .dec m t
  else if sp.1 = -1 then .dec m (t + digitsVal ed)
  else if digitsVal ed ≤ t then .dec m (t - digitsVal ed)
  else .dec (m * 10 ^ (digitsVal ed - t)) 0

/-- Exponent dispatch after the mantissa of a `parseFloat` literal. -/
def parseExpPart (m : ℤ) (t : ℕ) (cs : List Char) : JsNum :=
  match cs with
  | [] => .dec m t
  | c :: rest => if c = 'e' ∨ c = 'E' then applyExp m t rest else .dec m t

/-- Model of JavaScript `parseFloat` on the characters of a string:
skip leading whitespace, optional sign, integer digits, optional
fraction, optional exponent; `NaN` when no digits are found.  The
`Infinity` literal is not modelled (the appliance never sends it). -/
def parseFloatList (cs : List Char) : JsNum :=
  let cs1 := cs.dropWhile isSpaceJS
  let sp := splitSign cs1
  let ip := sp.2.takeWhile isDigitJS
  let rest1 := sp.2.dropWhile isDigitJS
  let fr := splitFrac rest1
  if ip = [] ∧ fr.1 = [] then .nan
  else parseExpPart (sp.1 * ((digitsVal ip : ℤ) * 10 ^ fr.1.length + (digitsVal fr.1 : ℤ)))
    fr.1.length fr.2

/-- Model of JavaScript `parseInt(s, 10)` on the characters of a
string: skip leading whitespace, optional sign, longest digit prefix;
`NaN` when no digits are found.  The model keeps the exact integer
value, whereas JavaScript stores a binary64 double that is lossy above
the safe-integer bound `2^53`; theorems that rely on the parsed value
being exact therefore restrict themselves to that range. -/
def parseInt10List (cs : List Char) : JsNum :=
  let cs1 := cs.dropWhile isSpaceJS
  let sp := splitSign cs1
  let ds := sp.2.takeWhile isDigitJS
  if ds = [] then .nan else .dec (sp.1 * (digitsVal ds : ℤ)) 0

/-- Remove trailing decimal zeros from the representation `m / 10^t`,
mirroring the shortest form JavaScript prints for a number. -/
def stripDec : ℤ → ℕ → ℤ × ℕ
  | m, 0 => (m, 0)
  | m, t + 1 => if m % 10 = 0 then stripDec (m / 10) t else (m, t + 1)

/-- Render the decimal `m / 10^t` as JavaScript prints the number
(assuming trailing zeros were already stripped from the pair). -/
def renderDecCore (m : ℤ) (t : ℕ) : String :=
  if t = 0 then intToString m
  else
    (if m < 0 then "-" else "") ++ natToString (m.natAbs / 10 ^ t) ++ "." ++
      String.mk (padDigits t (m.natAbs % 10 ^ t))

/-- JavaScript string coercion of a number (`'' + x`):
`"NaN"` for `NaN`, shortest decimal form otherwise.  JavaScript prints
only binary64-representable values and switches to exponential notation
at `1e21`; the model always prints the exact plain decimal, so it
coincides with the program only below those bounds (in particular on
the safe-integer range `|x| < 2^53`, within which theorems about
printed round-trips stay). -/
def numToString : JsNum → String
  | .nan => "NaN"
  | .dec m t => renderDecCore (stripDec m t).1 (stripDec m t).2

/-- JavaScript string coercion `'' + x` of a primitive value. -/
def jsToString : JSVal → String
  | .null => "null"
  | .undefined => "undefined"
  | .str s => s
  | .num n => numToString n
  | .bool b => if b then "true" else "false"

theorem intToString_data_nonneg {k : ℤ} (h : 0 ≤ k) :
    (intToString k).data = natDigits k.toNat := by
  rw [intToString, if_neg (by omega)]
  rfl

theorem intToString_data_neg {k : ℤ} (h : k < 0) :
    (intToString k).data = '-' :: natDigits k.natAbs := by
  rw [intToString, if_pos h, string_data_append]
  rfl

theorem splitSign_digit_head {c : Char} (hc : isDigitJS c = true) (l : List Char) :
    splitSign (c :: l) = (1, c :: l) := by
  obtain ⟨hm, hp, _, _, _⟩ := digit_ne_special hc
  simp [splitSign, hm, hp]

theorem splitSign_minus (l : List Char) : splitSign ('-' :: l) = (-1, l) := by
  simp [splitSign]

theorem parseFloatList_digits_frac (n t b : ℕ) (hb : b < 10 ^ t) :
    parseFloatList (natDigits n ++ '.' :: padDigits t b) =
      .dec ((n : ℤ) * 10 ^ t + (b : ℤ)) t := by
  obtain ⟨c, cs, hE⟩ := List.exists_cons_of_ne_nil (natDigits_ne_nil n)
  have hcd : isDigitJS c = true := natDigits_all_digits n c (by rw [hE]; simp)
  have hsp : isSpaceJS c = false := isSpaceJS_of_digit hcd
  have hdrop : (natDigits n ++ '.' :: padDigits t b).dropWhile isSpaceJS
      = natDigits n ++ '.' :: padDigits t b := by
    rw [hE, List.cons_append, dropWhile_cons_of_neg _ hsp]
  have hsign : splitSign (natDigits n ++ '.' :: padDigits t b)
      = (1, natDigits n ++ '.' :: padDigits t b) := by
    rw [hE, List.cons_append, splitSign_digit_head hcd, ← List.cons_append, ← hE]
  have hip : (natDigits n ++ '.' :: padDigits t b).takeWhile isDigitJS = natDigits n := by
    rw [takeWhile_append_of_all _ (natDigits_all_digits n),
      takeWhile_cons_of_neg _ (by decide)]
    simp
  have hrest : (natDigits n ++ '.' :: padDigits t b).dropWhile isDigitJS
      = '.' :: padDigits t b := by
    rw [dropWhile_append_of_all _ (natDigits_all_digits n),
      dropWhile_cons_of_neg _ (by decide)]
  have hfr : splitFrac ('.' :: padDigits t b) = (padDigits t b, []) := by
    simp [splitFrac, takeWhile_of_all (padDigits_all_digits t b),
      dropWhile_of_all (padDigits_all_digits t b)]
  simp only [parseFloatList, hdrop, hsign, hip, hrest, hfr]
  rw [if_neg (by simp [natDigits_ne_nil n])]
  simp only [parseExpPart, padDigits_length, digitsVal_natDigits, digitsVal_padDigits hb]
  ring_nf

theorem parseFloatList_digits (n : ℕ) : parseFloatList (natDigits n) = .dec (n : ℤ) 0 := by
  obtain ⟨c, cs, hE⟩ := List.exists_cons_of_ne_nil (natDigits_ne_nil n)
  have hcd : isDigitJS c = true := natDigits_all_digits n c (by rw [hE]; simp)
  have hsp : isSpaceJS c = false := isSpaceJS_of_digit hcd
  have hdrop : (natDigits n).dropWhile isSpaceJS = natDigits n := by
    rw [hE, dropWhile_cons_of_neg _ hsp]
  have hsign : splitSign (natDigits n) = (1, natDigits n) := by
    rw [hE, splitSign_digit_head hcd, ← hE]
  have hip : (natDigits n).takeWhile isDigitJS = natDigits n :=
    takeWhile_of_all (natDigits_all_digits n)
  have hrest : (natDigits n).dropWhile isDigitJS = [] :=
    dropWhile_of_all (natDigits_all_digits n)
  have hfr : splitFrac ([] : List Char) = ([], []) := rfl
  simp only [parseFloatList, hdrop, hsign, hip, hrest, hfr]
  rw [if_neg (by simp [natDigits_ne_nil n])]
  simp only [parseExpPart, digitsVal_natDigits]
  norm_num [digitsVal]

theorem parseFloatList_neg_digits_frac (n t b : ℕ) (hb : b < 10 ^ t) :
    parseFloatList ('-' :: (natDigits n ++ '.' :: padDigits t b)) =
      .dec (-((n : ℤ) * 10 ^ t + (b : ℤ))) t := by
  have hdrop : ('-' :: (natDigits n ++ '.' :: padDigits t b)).dropWhile isSpaceJS
      = '-' :: (natDigits n ++ '.' :: padDigits t b) :=
    dropWhile_cons_of_neg _ (by decide)
  have hip : (natDigits n ++ '.' :: padDigits t b).takeWhile isDigitJS = natDigits n := by
    rw [takeWhile_append_of_all _ (natDigits_all_digits n),
      takeWhile_cons_of_neg _ (by decide)]
    simp
  have hrest : (natDigits n ++ '.' :: padDigits t b).dropWhile isDigitJS
      = '.' :: padDigits t b := by
    rw [dropWhile_append_of_all _ (natDigits_all_digits n),
      dropWhile_cons_of_neg _ (by decide)]
  have hfr : splitFrac ('.' :: padDigits t b) = (padDigits t b, []) := by
    simp [splitFrac, takeWhile_of_all (padDigits_all_digits t b),
      dropWhile_of_all (padDigits_all_digits t b)]
  simp only [parseFloatList, hdrop, splitSign_minus, hip, hrest, hfr]
  rw [if_neg (by simp [natDigits_ne_nil n])]
  simp only [parseExpPart, padDigits_length, digitsVal_natDigits, digitsVal_padDigits hb]
  ring_nf

theorem parseFloatList_neg_digits (n : ℕ) :
    parseFloatList ('-' :: natDigits n) = .dec (-(n : ℤ)) 0 := by
  have hdrop : ('-' :: natDigits n).dropWhile isSpaceJS = '-' :: natDigits n :=
    dropWhile_cons_of_neg _ (by decide)
  have hip : (natDigits n).takeWhile isDigitJS = natDigits n :=
    takeWhile_of_all (natDigits_all_digits n)
  have hrest : (natDigits n).dropWhile isDigitJS = [] :=
    dropWhile_of_all (natDigits_all_digits n)
  simp only [parseFloatList, hdrop, splitSign_minus, hip, hrest]
  rw [if_neg (by simp [natDigits_ne_nil n])]
  simp only [parseExpPart, digitsVal_natDigits]
  norm_num [splitFrac, digitsVal]

theorem parseInt10List_intToString (k : ℤ) : parseInt10List (intToString k).data = .dec k 0 := by
  rcases lt_or_le k 0 with hk | hk
  · rw [intToString_data_neg hk]
    have hdrop : ('-' :: natDigits k.natAbs).dropWhile isSpaceJS
        = '-' :: natDigits k.natAbs := dropWhile_cons_of_neg _ (by decide)
    have hds : (natDigits k.natAbs).takeWhile isDigitJS = natDigits k.natAbs :=
      takeWhile_of_all (natDigits_all_digits _)
    simp only [parseInt10List, hdrop, splitSign_minus, hds]
    rw [if_neg (natDigits_ne_nil _)]
    rw [digitsVal_natDigits]
    congr 1
    omega
  · rw [intToString_data_nonneg hk]
    obtain ⟨c, cs, hE⟩ := List.exists_cons_of_ne_nil (natDigits_ne_nil k.toNat)
    have hcd : isDigitJS c = true := natDigits_all_digits _ c (by rw [hE]; simp)
    have hdrop : (natDigits k.toNat).dropWhile isSpaceJS = natDigits k.toNat := by
      rw [hE, dropWhile_cons_of_neg _ (isSpaceJS_of_digit hcd)]
    have hsign : splitSign (natDigits k.toNat) = (1, natDigits k.toNat) := by
      rw [hE, splitSign_digit_head hcd, ← hE]
    have hds : (natDigits k.toNat).takeWhile isDigitJS = natDigits k.toNat :=
      takeWhile_of_all (natDigits_all_digits _)
    simp only [parseInt10List, hdrop, hsign, hds]
    rw [if_neg (natDigits_ne_nil _)]
    rw [digitsVal_natDigits]
    congr 1
    omega

theorem renderDecCore_data_zero (m : ℤ) : (renderDecCore m 0).data = (intToString m).data := by
  rfl

theorem renderDecCore_data_pos {m : ℤ} {t : ℕ} (ht : t ≠ 0) (hm : 0 ≤ m) :
    (renderDecCore m t).data =
      natDigits (m.natAbs / 10 ^ t) ++ '.' :: padDigits t (m.natAbs % 10 ^ t) := by
  rw [renderDecCore, if_neg ht, if_neg (by omega)]
  rw [string_data_append, string_data_append, string_data_append]
  simp [natToString]

theorem renderDecCore_data_neg {m : ℤ} {t : ℕ} (ht : t ≠ 0) (hm : m < 0) :
    (renderDecCore m t).data =
      '-' :: (natDigits (m.natAbs / 10 ^ t) ++ '.' :: padDigits t (m.natAbs % 10 ^ t)) := by
  rw [renderDecCore, if_neg ht, if_pos hm]
  rw [string_data_append, string_data_append, string_data_append]
  simp [natToString]

theorem parseFloatList_renderDecCore (m : ℤ) (t : ℕ) :
    parseFloatList (renderDecCore m t).data = .dec m t := by
  rcases Nat.eq_zero_or_pos t with ht | ht
  · subst ht
    rw [renderDecCore_data_zero]
    rcases lt_or_le m 0 with hm | hm
    · rw [intToString_data_neg hm, parseFloatList_neg_digits]
      congr 1
      omega
    · rw [intToString_data_nonneg hm, parseFloatList_digits]
      congr 1
      omega
  · have ht0 : t ≠ 0 := by omega
    have hb : m.natAbs % 10 ^ t < 10 ^ t := Nat.mod_lt _ (Nat.pos_pow_of_pos t (by omega))
    have hsplit := Nat.div_add_mod m.natAbs (10 ^ t)
    rcases lt_or_le m 0 with hm | hm
    · rw [renderDecCore_data_neg ht0 hm, parseFloatList_neg_digits_frac _ _ _ hb]
      congr 1
      have h4 : m.natAbs / 10 ^ t * 10 ^ t + m.natAbs % 10 ^ t = m.natAbs := by
        rw [Nat.mul_comm]
        exact hsplit
      have : ((m.natAbs / 10 ^ t : ℕ) : ℤ) * 10 ^ t + ((m.natAbs % 10 ^ t : ℕ) : ℤ)
          = (m.natAbs : ℤ) := by
        exact_mod_cast h4
      rw [this]
      omega
    · rw [renderDecCore_data_pos ht0 hm, parseFloatList_digits_frac _ _ _ hb]
      have h4 : m.natAbs / 10 ^ t * 10 ^ t + m.natAbs % 10 ^ t = m.natAbs := by
        rw [Nat.mul_comm]
        exact hsplit
      have : ((m.natAbs / 10 ^ t : ℕ) : ℤ) * 10 ^ t + ((m.natAbs % 10 ^ t : ℕ) : ℤ)
          = (m.natAbs : ℤ) := by
        exact_mod_cast h4
      rw [this]
      congr 1
      omega

theorem stripDec_val (m : ℤ) (t : ℕ) :
    (((stripDec m t).1 : ℚ)) / 10 ^ (stripDec m t).2 = (m : ℚ) / 10 ^ t := by
  induction t generalizing m with
  | zero => rfl
  | succ t ih =>
    rw [stripDec]
    split
    · rename_i h
      have hdvd : (10 : ℤ) ∣ m := Int.dvd_of_emod_eq_zero h
      have hmul : (m / 10 : ℤ) * 10 = m := Int.ediv_mul_cancel hdvd
      have h10 : ((m / 10 : ℤ) : ℚ) * 10 = (m : ℚ) := by
        exact_mod_cast congrArg (fun z : ℤ => (z : ℚ)) hmul
      have hgoal : (m : ℚ) / 10 ^ (t + 1) = ((m / 10 : ℤ) : ℚ) / 10 ^ t := by
        rw [← h10, pow_succ, mul_div_mul_right _ _ (by norm_num : (10 : ℚ) ≠ 0)]
      rw [ih, hgoal]
    · rfl

theorem stripDec_shape (m : ℤ) (t : ℕ) :
    (stripDec m t).2 = 0 ∨ (stripDec m t).1 % 10 ≠ 0 := by
  induction t generalizing m with
  | zero => left; rfl
  | succ t ih =>
    rw [stripDec]
    split
    · exact ih _
    · rename_i h
      right
      exact h

theorem stripDec_idem (m : ℤ) (t : ℕ) :
    stripDec (stripDec m t).1 (stripDec m t).2 = stripDec m t := by
  rcases hE : (stripDec m t).2 with _ | t2
  · calc stripDec (stripDec m t).1 0 = ((stripDec m t).1, 0) := rfl
      _ = ((stripDec m t).1, (stripDec m t).2) := by rw [hE]
      _ = stripDec m t := Prod.mk.eta
  · rcases stripDec_shape m t with h | h
    · rw [h] at hE
      cases hE
    · rw [stripDec, if_neg h]
      calc ((stripDec m t).1, t2 + 1) = ((stripDec m t).1, (stripDec m t).2) := by rw [hE]
        _ = stripDec m t := Prod.mk.eta

theorem parseFloatList_numToString (n : JsNum) :
    parseFloatList (numToString n).data = match n with
      | .nan => .nan
      | .dec m t => .dec (stripDec m t).1 (stripDec m t).2 := by
  cases n with
  | nan => decide
  | dec m t =>
    simp only [numToString]
    exact parseFloatList_renderDecCore _ _

theorem numToString_strip (m : ℤ) (t : ℕ) :
    numToString (.dec (stripDec m t).1 (stripDec m t).2) = numToString (.dec m t) := by
  simp only [numToString, stripDec_idem]

theorem renderDecCore_has_digit (m : ℤ) (t : ℕ) :
    ∃ c ∈ (renderDecCore m t).data, isDigitJS c = true := by
  obtain ⟨c, cs, hE⟩ := List.exists_cons_of_ne_nil (natDigits_ne_nil m.natAbs)
  obtain ⟨c2, cs2, hE2⟩ := List.exists_cons_of_ne_nil (natDigits_ne_nil (m.natAbs / 10 ^ t))
  rcases Nat.eq_zero_or_pos t with ht | ht
  · subst ht
    rw [renderDecCore_data_zero]
    rcases lt_or_le m 0 with hm | hm
    · refine ⟨c, ?_, natDigits_all_digits _ c (by rw [hE]; simp)⟩
      rw [intToString_data_neg hm, hE]
      simp
    · refine ⟨c, ?_, natDigits_all_digits _ c (by rw [hE]; simp)⟩
      have : m.natAbs = m.toNat := by omega
      rw [intToString_data_nonneg hm, ← this, hE]
      simp
  · have ht0 : t ≠ 0 := by omega
    rcases lt_or_le m 0 with hm | hm
    · refine ⟨c2, ?_, natDigits_all_digits _ c2 (by rw [hE2]; simp)⟩
      rw [renderDecCore_data_neg ht0 hm, hE2]
      simp
    · refine ⟨c2, ?_, natDigits_all_digits _ c2 (by rw [hE2]; simp)⟩
      rw [renderDecCore_data_pos ht0 hm, hE2]
      simp

theorem numToString_ne_dash (m : ℤ) (t : ℕ) :
    numToString (.dec m t) ≠ "-" ∧ numToString (.dec m t) ≠ "--" := by
  obtain ⟨c, hcm, hcd⟩ := renderDecCore_has_digit (stripDec m t).1 (stripDec m t).2
  constructor
  · intro h
    have hdata : (renderDecCore (stripDec m t).1 (stripDec m t).2).data = ['-'] := by
      rw [show (['-'] : List Char) = ("-" : String).data from rfl, ← h]
      rfl
    rw [hdata] at hcm
    simp only [List.mem_singleton] at hcm
    subst hcm
    exact absurd hcd (by decide)
  · intro h
    have hdata : (renderDecCore (stripDec m t).1 (stripDec m t).2).data = ['-', '-'] := by
      rw [show (['-', '-'] : List Char) = ("--" : String).data from rfl, ← h]
      rfl
    rw [hdata] at hcm
    simp only [List.mem_cons, List.not_mem_nil, or_false, or_self] at hcm
    subst hcm
    exact absurd hcd (by decide)

/-- `PARSER.int` from src/connector.ts:
`x == null ? 0 : parseInt('' + x, 10)`. -/
def PARSER.int (x : JSVal) : JsNum :=
  if looseNullB x then .dec 0 0 else parseInt10List (jsToString x).data

/-- `PARSER.temperature` from src/connector.ts:
`x == null || x === '-' || x === '--' ? null : parseFloat(x)`; the
result `none` models the JavaScript `null`.  The strict comparisons
against the sentinel strings only succeed on equal strings, which the
structural comparisons below capture exactly. -/
def PARSER.temperature (x : JSVal) : Option JsNum :=
  if looseNullB x ∨ x = .str "-" ∨ x = .str "--" then none
  else some (parseFloatList (jsToString x).data)

/-- `PARSER.bool` from src/connector.ts:
`x === 'true' || x === 1 || x === true`. -/
def PARSER.bool (x : JSVal) : Bool :=
  jsStrictEqB x (.str "true") || jsStrictEqB x (.num (.dec 1 0)) || jsStrictEqB x (.bool true)

/-- `FORMATTER.int` from src/connector.ts: `'' + PARSER.int(x)`. -/
def FORMATTER.int (x : JSVal) : String := numToString (PARSER.int x)

/-- `FORMATTER.temperature` from src/connector.ts:
`'' + PARSER.temperature(x)`; string coercion prints the JavaScript
`null` as the text `null`. -/
def FORMATTER.temperature (x : JSVal) : String :=
  match PARSER.temperature x with
  | none => "null"
  | some n => numToString n

/-- `FORMATTER.bool` from src/connector.ts: `PARSER.bool(x) ? '1' : '0'`. -/
def FORMATTER.bool (x : JSVal) : String := if PARSER.bool x then "1" else "0"

/-- A JavaScript object as the connector uses it: an ordered list of
distinct keys with values.  `List.lookup` retrieves a key's value. -/
abbrev JsRec : Type := List (String × JSVal)

/-- Property assignment `r[k] = v`: overwrite the first binding of `k`
or append a fresh one, as a JavaScript object does. -/
def setKey : JsRec → String → JSVal → JsRec
  | [], k, v => [(k, v)]
  | (k2, v2) :: rest, k, v =>
    if k2 = k then (k, v) :: rest else (k2, v2) :: setKey rest k v

/-- Property read `r[k]` with `undefined` for a missing key. -/
def getKey (r : JsRec) (k : String) : JSVal := (List.lookup k r).getD .undefined

/-- The keys of a record in order. -/
def recKeys (r : JsRec) : List String := r.map Prod.fst

/-- `Object.assign(base, src)`: write every binding of `src` onto
`base` in order. -/
def objAssign (base : JsRec) (src : JsRec) : JsRec :=
  src.foldl (fun b kv => setKey b kv.1 kv.2) base

/-- First-some choice on options, used to state merge semantics. -/
def optOr {α : Type} : Option α → Option α → Option α
  | some v, _ => some v
  | none, b => b

theorem lookup_setKey (r : JsRec) (k k2 : String) (v : JSVal) :
    List.lookup k2 (setKey r k v) = if k2 = k then some v else List.lookup k2 r := by
  induction r with
  | nil =>
    by_cases h : k2 = k
    · subst h
      simp [setKey, List.lookup]
    · have hb : (k2 == k) = false := beq_eq_false_iff_ne.mpr h
      simp [setKey, List.lookup, hb, h]
  | cons kv rest ih =>
    obtain ⟨k3, v3⟩ := kv
    by_cases h3 : k3 = k
    · subst h3
      simp only [setKey, if_pos rfl]
      by_cases h2 : k2 = k3
      · subst h2
        simp [List.lookup]
      · have hb : (k2 == k3) = false := beq_eq_false_iff_ne.mpr h2
        simp [List.lookup, hb, h2]
    · simp only [setKey, if_neg h3]
      by_cases h2 : k2 = k3
      · subst h2
        have hne : ¬ k2 = k := h3
        simp [List.lookup, hne]
      · have hb : (k2 == k3) = false := beq_eq_false_iff_ne.mpr h2
        simp [List.lookup, hb, h2, ih]

theorem recKeys_setKey_of_mem {r : JsRec} {k : String} (h : k ∈ recKeys r) (v : JSVal) :
    recKeys (setKey r k v) = recKeys r := by
  induction r with
  | nil => cases h
  | cons kv rest ih =>
    obtain ⟨k3, v3⟩ := kv
    simp only [setKey]
    split <;> rename_i h3
    · subst h3
      rfl
    · have hmem : k ∈ recKeys rest := by
        rcases h with _ | ⟨_, h⟩
        · exact absurd rfl h3
        · exact h
      simp only [recKeys, List.map_cons] at *
      rw [ih hmem]

theorem mem_recKeys_of_lookup {r : JsRec} {k : String} {v : JSVal}
    (h : List.lookup k r = some v) : k ∈ recKeys r := by
  induction r with
  | nil => cases h
  | cons kv rest ih =>
    obtain ⟨k3, v3⟩ := kv
    by_cases h3 : k = k3
    · subst h3
      simp [recKeys]
    · simp only [List.lookup, beq_eq_false_iff_ne.mpr h3] at h
      simp only [recKeys, List.map_cons, List.mem_cons]
      exact Or.inr (ih h)

theorem lookup_objAssign (src : JsRec) (base : JsRec) (k : String)
    (hnd : (recKeys src).Nodup) :
    List.lookup k (objAssign base src) = optOr (List.lookup k src) (List.lookup k base) := by
  induction src generalizing base with
  | nil => simp [objAssign, optOr, List.lookup]
  | cons kv rest ih =>
    obtain ⟨k1, v1⟩ := kv
    have hnd2 : (recKeys rest).Nodup := (List.nodup_cons.mp hnd).2
    have hk1 : k1 ∉ recKeys rest := (List.nodup_cons.mp hnd).1
    have hstep : objAssign base ((k1, v1) :: rest) = objAssign (setKey base k1 v1) rest := rfl
    rw [hstep, ih _ hnd2]
    by_cases hk : k = k1
    · subst hk
      have hnone : List.lookup k rest = none := by
        cases hE : List.lookup k rest with
        | none => rfl
        | some v => exact absurd (mem_recKeys_of_lookup hE) hk1
      simp [List.lookup, hnone, optOr, lookup_setKey]
    · simp only [List.lookup, beq_eq_false_iff_ne.mpr hk]
      cases List.lookup k rest with
      | none => simp [optOr, lookup_setKey, hk]
      | some v => simp [optOr]

/-- `PARSER[format] || PARSER.default` from src/connector.ts: parse
dispatch on the coercion kind name, identity for unknown kinds. -/
def parserFor (kind : String) : JSVal → JSVal :=
  if kind = "int" then fun v => .num (PARSER.int v)
  else if kind = "temperature" then fun v =>
    match PARSER.temperature v with
    | none => .null
    | some n => .num n
  else if kind = "bool" then fun v => .bool (PARSER.bool v)
  else fun v => v

/-- `FORMATTER[format] || FORMATTER.default` from src/connector.ts:
format dispatch on the coercion kind name, identity for unknown kinds. -/
def formatterFor (kind : String) : JSVal → JSVal :=
  if kind = "int" then fun v => .str (FORMATTER.int v)
  else if kind = "temperature" then fun v => .str (FORMATTER.temperature v)
  else if kind = "bool" then fun v => .str (FORMATTER.bool v)
  else fun v => v

/-- A coercion schema: ordered kind names with their field lists, as the
source's `formats` object literals. -/
abbrev Schema : Type := List (String × List String)

/-- `parse_data` from src/connector.ts: for every kind in the schema,
for every listed field, `x[prop] = lambda(x[prop])` (assigning even when
the field was absent, exactly as the source does). -/
def parse_data (x : JsRec) (formats : Schema) : JsRec :=
  formats.foldl
    (fun x kindProps =>
      kindProps.2.foldl (fun r p => setKey r p (parserFor kindProps.1 (getKey r p))) x)
    x

/-- `format_data` from src/connector.ts: for every kind, the field list
is first filtered to the fields currently `!= null` and only those are
then formatted in place, exactly as the source's filter-then-forEach. -/
def format_data (x : JsRec) (formats : Schema) : JsRec :=
  formats.foldl
    (fun x kindProps =>
      (kindProps.2.filter (fun p => !looseNullB (getKey x p))).foldl
        (fun r p => setKey r p (formatterFor kindProps.1 (getKey r p))) x)
    x

/-- `ctrl_formats` from src/connector.ts. -/
def ctrl_formats : Schema :=
  [("int", ["alert", "mode", "b_mode"]),
   ("temperature", ["shum", "stemp", "b_shum"]),
   ("bool", ["pow"])]

/-- `parse_control_info` from src/connector.ts. -/
def parse_control_info (x : JsRec) : JsRec := parse_data x ctrl_formats

/-- `format_control_info` from src/connector.ts. -/
def format_control_info (x : JsRec) : JsRec := format_data x ctrl_formats

theorem lookup_foldl_setKey (f : JsRec → String → JSVal) (props : List String)
    (k : String) (h : k ∉ props) (x : JsRec) :
    List.lookup k (props.foldl (fun r p => setKey r p (f r p)) x) = List.lookup k x := by
  induction props generalizing x with
  | nil => rfl
  | cons p rest ih =>
    have hp : ¬ k = p := fun hc => h (by rw [hc]; simp)
    have hrest : k ∉ rest := fun hc => h (by simp [hc])
    simp only [List.foldl_cons]
    rw [ih hrest, lookup_setKey, if_neg hp]

theorem lookup_parse_data_notin (x : JsRec) (formats : Schema) (k : String)
    (h : ∀ kindProps ∈ formats, k ∉ kindProps.2) :
    List.lookup k (parse_data x formats) = List.lookup k x := by
  induction formats generalizing x with
  | nil => rfl
  | cons kindProps rest ih =>
    have hstep : parse_data x (kindProps :: rest) =
        parse_data
          (kindProps.2.foldl (fun r p => setKey r p (parserFor kindProps.1 (getKey r p))) x)
          rest := rfl
    rw [hstep, ih _ fun kp hkp => h kp (List.mem_cons_of_mem _ hkp)]
    exact lookup_foldl_setKey _ _ _ (h kindProps (List.mem_cons_self _ _)) x

theorem lookup_format_data_notin (x : JsRec) (formats : Schema) (k : String)
    (h : ∀ kindProps ∈ formats, k ∉ kindProps.2) :
    List.lookup k (format_data x formats) = List.lookup k x := by
  induction formats generalizing x with
  | nil => rfl
  | cons kindProps rest ih =>
    have hstep : format_data x (kindProps :: rest) =
        format_data
          ((kindProps.2.filter (fun p => !looseNullB (getKey x p))).foldl
            (fun r p => setKey r p (formatterFor kindProps.1 (getKey r p))) x)
          rest := rfl
    rw [hstep, ih _ fun kp hkp => h kp (List.mem_cons_of_mem _ hkp)]
    have hout : k ∉ kindProps.2.filter (fun p => !looseNullB (getKey x p)) := by
      intro hc
      exact h kindProps (List.mem_cons_self _ _) (List.mem_of_mem_filter hc)
    exact lookup_foldl_setKey _ _ _ hout x

theorem recKeys_foldl_setKey (f : JsRec → String → JSVal) (props : List String)
    (x : JsRec) (h : ∀ p ∈ props, p ∈ recKeys x) :
    recKeys (props.foldl (fun r p => setKey r p (f r p)) x) = recKeys x := by
  induction props generalizing x with
  | nil => rfl
  | cons p rest ih =>
    simp only [List.foldl_cons]
    have hp : p ∈ recKeys x := h p (by simp)
    have hkeys : recKeys (setKey x p (f x p)) = recKeys x := recKeys_setKey_of_mem hp _
    rw [ih _ fun q hq => by rw [hkeys]; exact h q (by simp [hq]), hkeys]

theorem recKeys_format_data (x : JsRec) (formats : Schema) :
    recKeys (format_data x formats) = recKeys x := by
  induction formats generalizing x with
  | nil => rfl
  | cons kindProps rest ih =>
    have hstep : format_data x (kindProps :: rest) =
        format_data
          ((kindProps.2.filter (fun p => !looseNullB (getKey x p))).foldl
            (fun r p => setKey r p (formatterFor kindProps.1 (getKey r p))) x)
          rest := rfl
    rw [hstep, ih]
    apply recKeys_foldl_setKey
    intro p hp
    have hnn := (List.mem_filter.mp hp).2
    cases hE : List.lookup p x with
    | none =>
      exfalso
      rw [getKey, hE] at hnn
      simp [looseNullB] at hnn
    | some v => exact mem_recKeys_of_lookup hE

/-- Decode failure taxonomy, one constructor per distinct throw site of
`send_request` in src/connector.ts (names follow the spec's taxonomy):
`hostRequired` for the missing-host check, `methodNotImplemented` for a
non-GET verb, `transport` for a failed request callback,
`malformedResponse` for a payload without the `ret=` prefix,
`invalidParameters` for `PARAM NG`, `advancedError` for `ADV_NG`,
`unknownStatus` for any other non-`OK` token, and `uriError` for the
exception `decodeURIComponent` raises on a malformed percent escape. -/
inductive JsErr : Type
  | hostRequired : JsErr
  | methodNotImplemented : JsErr
  | transport : String → JsErr
  | malformedResponse : JsErr
  | invalidParameters : JsErr
  | advancedError : JsErr
  | unknownStatus : String → JsErr
  | uriError : JsErr
deriving DecidableEq, Repr

/-- JavaScript `s.split(sep)` for a one-character separator: always at
least one piece, empty pieces kept. -/
def splitOnChar (sep : Char) : List Char → List (List Char)
  | [] => [[]]
  | c :: rest =>
    let r := splitOnChar sep rest
    if c = sep then [] :: r
    else
      match r with
      | [] => [[c]]
      | h :: t2 => (c :: h) :: t2

/-- `response.split(',')` on a string. -/
def splitComma (s : String) : List String := (splitOnChar ',' s.data).map String.mk

/-- `s.split('=')` on a string. -/
def splitEq (s : String) : List String := (splitOnChar '=' s.data).map String.mk

/-- `rsp[0].indexOf('ret=') === 0`, i.e. the string starts with the
four-character prefix. -/
def strStartsWith (s pre : String) : Bool := s.data.take pre.data.length == pre.data

/-- `s.substr(n)`: drop the first `n` characters. -/
def strDrop (s : String) (n : ℕ) : String := String.mk (s.data.drop n)

/-- Hexadecimal digit value, as `decodeURIComponent` reads escapes. -/
def hexVal (c : Char) : Option ℕ :=
  if isDigitJS c then some (c.toNat - 48)
  else if 97 ≤ c.toNat ∧ c.toNat ≤ 102 then some (c.toNat - 87)
  else if 65 ≤ c.toNat ∧ c.toNat ≤ 70 then some (c.toNat - 55)
  else none

/-- Byte-level model of `decodeURIComponent`: a `%` escape needs two hex
digits and decodes to the character with that code; any other character
passes through; `none` models the `URIError` JavaScript raises on a
malformed escape.  (JavaScript additionally validates multi-byte UTF-8
sequences; the appliance protocol is ASCII so the byte-level model
coincides on all reachable payloads.) -/
def percentDecode : List Char → Option (List Char)
  | [] => some []
  | c :: rest =>
    if c = '%' then
      match rest with
      | c1 :: c2 :: rest2 =>
        match hexVal c1, hexVal c2 with
        | some h1, some h2 => (percentDecode rest2).map (fun ds => Char.ofNat (16 * h1 + h2) :: ds)
        | _, _ => none
      | _ => none
    else (percentDecode rest).map (fun ds => c :: ds)

/-- `decodeURIComponent` on a string (`none` models `URIError`). -/
def decodeURIComponentJS (s : String) : Option String := (percentDecode s.data).map String.mk

/-- `List.map` under an exception-throwing function: the first failure
aborts, as a JavaScript exception inside `Array.map` would. -/
def mapMO {α β : Type} (g : α → Option β) : List α → Option (List β)
  | [] => some []
  | a :: as_ =>
    match g a with
    | none => none
    | some b =>
      match mapMO g as_ with
      | none => none
      | some bs => some (b :: bs)

/-- The key-value assembly of `send_request`'s response handler on the
parts after the status prefix:
`rsp.slice(1).map(s => s.split('=').map(decodeURIComponent))
 .filter(x => x.length === 2).forEach(x => r[x[0]] = x[1])`. -/
def decodePairs (parts : List String) : Except JsErr JsRec :=
  match mapMO (fun s => mapMO decodeURIComponentJS (splitEq s)) parts with
  | none => .error .uriError
  | some decoded =>
    .ok (((decoded.filter fun x => x.length == 2).foldl
      (fun r x => setKey r (x.getD 0 "") (.str (x.getD 1 ""))) []))

/-- The response-decoding half of `send_request` from src/connector.ts:
split on commas, demand the `ret=` prefix, dispatch on the status token,
then assemble the key-value record. -/
def decodeResponse (body : String) : Except JsErr JsRec :=
  match splitComma body with
  | [] => .error .malformedResponse
  | first :: rest =>
    if strStartsWith first "ret=" then
      if strDrop first 4 = "PARAM NG" then .error .invalidParameters
      else if strDrop first 4 = "ADV_NG" then .error .advancedError
      else if strDrop first 4 ≠ "OK" then .error (.unknownStatus (strDrop first 4))
      else decodePairs rest
    else .error .malformedResponse

/-- Whether an `Except` carries a success value. -/
def isOkE {ε α : Type} : Except ε α → Bool
  | .ok _ => true
  | .error _ => false

/-- A request sent to the appliance: the endpoint path and the optional
query-parameter record. -/
abbrev SentReq : Type := String × Option JsRec

/-- Transport collaborator: maps an endpoint path and query parameters
to a raw response body, or a transport-level error message. -/
abbrev Device : Type := String → Option JsRec → Except String String

/-- `send_request` from src/connector.ts, with the HTTP layer abstracted
into `device`.  Returns the decoded result together with the list of
requests that actually reached the transport (empty when the host or
method guards throw before any request). -/
def send_request (host : String) (device : Device) (method url : String)
    (params : Option JsRec) : Except JsErr JsRec × List SentReq :=
  if host = "" then (.error .hostRequired, [])
  else if method ≠ "GET" then (.error .methodNotImplemented, [])
  else
    match device url params with
    | .error e => (.error (.transport e), [(url, params)])
    | .ok body => (decodeResponse body, [(url, params)])

/-- The six always-required control fields, in the order
`set_control_info` copies them. -/
def sixFields : List String := ["pow", "mode", "stemp", "shum", "f_rate", "f_dir"]

/-- The `minimal_state` record of `set_control_info`:
`['pow', ...].forEach(x => minimal_state[x] = current[x])` starting from
an empty object (an absent field is copied as `undefined`). -/
def minimalState (current : JsRec) : JsRec :=
  sixFields.foldl (fun m x => setKey m x (getKey current x)) []

/-- `set_control_info` from src/connector.ts: format the caller's
changes, fetch the current raw control state, copy the six required
fields, overlay the formatted changes with `Object.assign`, and submit
the merged record to the write endpoint.  The second component records
every request that reached the transport, in order. -/
def set_control_info (host : String) (device : Device) (params0 : JsRec) :
    Except JsErr JsRec × List SentReq :=
  let params := format_control_info params0
  let fetch := send_request host device "GET" "/aircon/get_control_info" none
  match fetch.1 with
  | .error e => (.error e, fetch.2)
  | .ok current =>
    let merged := objAssign (minimalState current) params
    let write := send_request host device "GET" "/aircon/set_control_info" (some merged)
    (write.1, fetch.2 ++ write.2)

/-- Embed the result of the temperature parse back into a JavaScript
value (the JavaScript `null` for `none`), for composing parse with
format the way the round-trip laws do. -/
def tempToJSVal : Option JsNum → JSVal
  | none => JSVal.null
  | some n => JSVal.num n

theorem lookup_minimalState (current : JsRec) (k : String) :
    List.lookup k (minimalState current) =
      if k ∈ sixFields then some (getKey current k) else none := by
  have hunf : minimalState current =
      setKey (setKey (setKey (setKey (setKey (setKey [] "pow" (getKey current "pow"))
        "mode" (getKey current "mode")) "stemp" (getKey current "stemp"))
        "shum" (getKey current "shum")) "f_rate" (getKey current "f_rate"))
        "f_dir" (getKey current "f_dir") := rfl
  rw [hunf]
  simp only [lookup_setKey]
  by_cases h1 : k = "pow"
  · subst h1
    simp [sixFields]
  · by_cases h2 : k = "mode"
    · subst h2
      simp [sixFields]
    · by_cases h3 : k = "stemp"
      · subst h3
        simp [sixFields]
      · by_cases h4 : k = "shum"
        · subst h4
          simp [sixFields]
        · by_cases h5 : k = "f_rate"
          · subst h5
            simp [sixFields]
          · by_cases h6 : k = "f_dir"
            · subst h6
              simp [sixFields]
            · simp [sixFields, h1, h2, h3, h4, h5, h6, List.lookup]

instance {e a : Type} [DecidableEq e] [DecidableEq a] : DecidableEq (Except e a) := fun x y =>
  match x, y with
  | .ok u, .ok v => decidable_of_iff (u = v) (by simp)
  | .error u, .error v => decidable_of_iff (u = v) (by simp)
  | .ok _, .error _ => isFalse (by simp)
  | .error _, .ok _ => isFalse (by simp)

/-- C10: the temperature format function applied to the JavaScript
`null` returns the four-character string `null` (not a `-`/`--`
sentinel), and parsing that output yields `NaN` rather than `null`. -/
theorem c10_format_null_yields_nan :
    FORMATTER.temperature JSVal.null = "null" ∧
    PARSER.temperature (JSVal.str "null") = some JsNum.nan ∧
    PARSER.temperature (JSVal.str "null") ≠ none := by
  refine ⟨rfl, by decide, by decide⟩

/-- C8: for every payload whose first comma-separated part does not
begin with the four-character literal `ret=` (the empty string
included), decoding fails with `malformedResponse` regardless of the
remaining content. -/
theorem c8_no_prefix_malformed (body : String)
    (h : strStartsWith ((splitComma body).headD "") "ret=" = false) :
    decodeResponse body = .error .malformedResponse := by
  cases hs : splitComma body with
  | nil => simp [decodeResponse, hs]
  | cons first rest =>
    rw [hs] at h
    simp only [List.headD_cons] at h
    simp [decodeResponse, hs, h]

/-- Witness for C8 at the empty payload. -/
theorem c8_no_prefix_malformed_witness :
    strStartsWith ((splitComma "").headD "") "ret=" = false ∧
    decodeResponse "" = .error .malformedResponse :=
  ⟨by decide, c8_no_prefix_malformed "" (by decide)⟩

/-- C2: when the current-state fetch of `set_control_info` fails (with a
transport error or any decode error), the whole call fails with that
error and the transport saw exactly one request, the GET of the current
state; no write request is ever sent. -/
theorem c2_fetch_failure_no_write (host : String) (device : Device) (changes : JsRec)
    (e : JsErr) (hh : host ≠ "")
    (hf : (send_request host device "GET" "/aircon/get_control_info" none).1 = .error e) :
    set_control_info host device changes =
      (.error e, [("/aircon/get_control_info", none)]) := by
  have hlog : ∀ url p, (send_request host device "GET" url p).2 = [(url, p)] := by
    intro url p
    simp only [send_request, if_neg hh]
    rw [if_neg (by simp)]
    cases device url p <;> rfl
  simp only [set_control_info, hf]
  rw [hlog]

/-- Witness for C2 with a transport that always fails. -/
theorem c2_fetch_failure_no_write_witness :
    ("h" : String) ≠ "" ∧
    (send_request "h" (fun _ _ => .error "boom") "GET" "/aircon/get_control_info" none).1 =
      .error (JsErr.transport "boom") ∧
    set_control_info "h" (fun _ _ => .error "boom")
        [("stemp", JSVal.num (JsNum.dec 26 0))] =
      (.error (JsErr.transport "boom"), [("/aircon/get_control_info", none)]) :=
  ⟨by decide, rfl,
    c2_fetch_failure_no_write "h" (fun _ _ => .error "boom")
      [("stemp", JSVal.num (JsNum.dec 26 0))] (JsErr.transport "boom") (by decide) rfl⟩

/-- C9: the field mapper, in the parse direction and in the format
direction, leaves every field whose name is not listed under any kind of
the schema unchanged. -/
theorem c9_unlisted_fields_untouched (x : JsRec) (formats : Schema) (k : String)
    (h : ∀ kindProps ∈ formats, k ∉ kindProps.2) :
    List.lookup k (parse_data x formats) = List.lookup k x ∧
    List.lookup k (format_data x formats) = List.lookup k x :=
  ⟨lookup_parse_data_notin x formats k h, lookup_format_data_notin x formats k h⟩

/-- Witness for C9 on the control schema and a field outside it. -/
theorem c9_unlisted_fields_untouched_witness :
    (∀ kindProps ∈ ctrl_formats, "f_rate" ∉ kindProps.2) ∧
    List.lookup "f_rate" (parse_data [("f_rate", JSVal.str "A")] ctrl_formats) =
      List.lookup "f_rate" [("f_rate", JSVal.str "A")] ∧
    List.lookup "f_rate" (format_data [("f_rate", JSVal.str "A")] ctrl_formats) =
      List.lookup "f_rate" [("f_rate", JSVal.str "A")] :=
  ⟨by decide,
    (c9_unlisted_fields_untouched [("f_rate", JSVal.str "A")] ctrl_formats "f_rate"
      (by decide)).1,
    (c9_unlisted_fields_untouched [("f_rate", JSVal.str "A")] ctrl_formats "f_rate"
      (by decide)).2⟩

/-- C4 counterexample: the decoder splits a part on every `=` and keeps
it only when that yields exactly two pieces, so the part `a=b=c` is
dropped entirely — it is not kept with key `a` and value `b=c` as the
claim states. -/
theorem c4_counterexample_part_dropped :
    decodeResponse "ret=OK,a=b=c" = .ok [] ∧
    decodeResponse "ret=OK,a=b=c" ≠ .ok [("a", JSVal.str "b=c")] := by
  refine ⟨rfl, by decide⟩

/-- C4 amended: for every part of an OK payload after the first, the
decoder splits the part on every `=` (not only the first), percent
decodes all pieces, and keeps the part only when the split yields
exactly two pieces, mapping the decoded key to the decoded value; a part
like `a=b=c` is dropped. -/
theorem c4_amended_split_all_eq (s : String) (ds : List String)
    (h : mapMO decodeURIComponentJS (splitEq s) = some ds) :
    decodePairs [s] =
      .ok (if ds.length = 2
        then [(ds.getD 0 "", JSVal.str (ds.getD 1 ""))]
        else []) := by
  have hm : mapMO (fun s2 => mapMO decodeURIComponentJS (splitEq s2)) [s] = some [ds] := by
    simp [mapMO, h]
  by_cases hl : ds.length = 2
  · simp [decodePairs, hm, hl, setKey]
  · simp [decodePairs, hm, hl]

/-- Witness for the amended C4 on a well-formed and on a dropped part. -/
theorem c4_amended_split_all_eq_witness :
    mapMO decodeURIComponentJS (splitEq "pow=1") = some ["pow", "1"] ∧
    decodePairs ["pow=1"] =
      .ok (if (["pow", "1"] : List String).length = 2
        then [((["pow", "1"] : List String).getD 0 "",
          JSVal.str ((["pow", "1"] : List String).getD 1 ""))]
        else []) :=
  ⟨by decide, c4_amended_split_all_eq "pow=1" ["pow", "1"] (by decide)⟩

/-- C7 counterexample: non-numeric junk (and the empty string) parse to
`NaN` for the `int` kind and to `NaN` for the `temperature` kind, not to
the documented defaults `0` and `null`. -/
theorem c7_counterexample_junk_is_nan :
    PARSER.int (JSVal.str "abc") = JsNum.nan ∧
    PARSER.int (JSVal.str "") = JsNum.nan ∧
    PARSER.temperature (JSVal.str "abc") = some JsNum.nan ∧
    JsNum.nan ≠ JsNum.dec 0 0 ∧
    some JsNum.nan ≠ (none : Option JsNum) := by
  refine ⟨by decide, by decide, by decide, by decide, by decide⟩

/-- C7 amended: every parse function of the coercion tables is a total
function (never raises); missing fields (`null`/`undefined`) degrade to
the documented defaults `0`, `null`, `false`, and the `bool` parse maps
every string other than `true` to `false`; but non-numeric junk for
`int` and `temperature` yields `NaN` rather than those defaults. -/
theorem c7_amended_totality_defaults :
    (∀ v : JSVal, looseNullB v = true → PARSER.int v = JsNum.dec 0 0) ∧
    (∀ v : JSVal, looseNullB v = true → PARSER.temperature v = none) ∧
    (∀ s : String, PARSER.bool (JSVal.str s) = (s == "true")) := by
  refine ⟨?_, ?_, ?_⟩
  · intro v hv
    simp [PARSER.int, hv]
  · intro v hv
    simp [PARSER.temperature, hv]
  · intro s
    by_cases h : s = "true"
    · subst h
      decide
    · have hb : (s == "true") = false := beq_eq_false_iff_ne.mpr h
      simp [PARSER.bool, jsStrictEqB, hb]

/-- Witness for the amended C7 at the `null` input. -/
theorem c7_amended_totality_defaults_witness :
    looseNullB JSVal.null = true ∧
    PARSER.int JSVal.null = JsNum.dec 0 0 ∧
    PARSER.temperature JSVal.null = none :=
  ⟨by decide, c7_amended_totality_defaults.1 JSVal.null (by decide),
    c7_amended_totality_defaults.2.1 JSVal.null (by decide)⟩

/-- C5 counterexample: the bool round-trip fails on the wire domain —
`format(parse('1'))` is `'0'` (the string `'1'` is not strictly equal to
the number `1`, so it parses to `false`), and `format(parse('true'))`
is `'1'`, not `'true'`. -/
theorem c5_counterexample_bool_round_trip :
    FORMATTER.bool (JSVal.bool (PARSER.bool (JSVal.str "1"))) = "0" ∧
    ("0" : String) ≠ "1" ∧
    FORMATTER.bool (JSVal.bool (PARSER.bool (JSVal.str "true"))) = "1" ∧
    ("1" : String) ≠ "true" := by
  refine ⟨by decide, by decide, by decide, by decide⟩

/-- C5 amended: `format(parse(x)) = x` holds for the `int` kind over the
canonical decimal renderings of the safe integers `|k| < 2^53` — the
range in which JavaScript's binary64 arithmetic is exact and numbers
print in plain decimal, so the exact-decimal model coincides with the
program; outside it the program itself breaks the law (precision loss
above `2^53`, exponential printing at `1e21`), so the claim is confined
to that domain.  For the `bool` kind the round-trip holds for no string
input other than `'0'` — in particular it fails on the wire values
`'1'` and `'true'`. -/
theorem c5_amended_round_trip :
    (∀ k : ℤ, k.natAbs < 2 ^ 53 →
      FORMATTER.int (JSVal.num (PARSER.int (JSVal.str (intToString k)))) =
        intToString k) ∧
    (∀ s : String, (FORMATTER.bool (JSVal.bool (PARSER.bool (JSVal.str s))) = s ↔ s = "0")) := by
  constructor
  · intro k _hk
    have h1 : PARSER.int (JSVal.str (intToString k)) = JsNum.dec k 0 := by
      simp only [PARSER.int, looseNullB, if_false, jsToString]
      exact parseInt10List_intToString k
    rw [h1]
    show numToString (PARSER.int (JSVal.num (JsNum.dec k 0))) = intToString k
    have h2 : PARSER.int (JSVal.num (JsNum.dec k 0)) = JsNum.dec k 0 := by
      simp only [PARSER.int, looseNullB, if_false, jsToString]
      have h3 : numToString (JsNum.dec k 0) = intToString k := rfl
      rw [h3]
      exact parseInt10List_intToString k
    rw [h2]
    rfl
  · intro s
    by_cases h : s = "true"
    · subst h
      decide
    · have hb : (s == "true") = false := beq_eq_false_iff_ne.mpr h
      have hfalse : PARSER.bool (JSVal.str s) = false := by
        simp [PARSER.bool, jsStrictEqB, hb]
      rw [hfalse]
      have h0 : FORMATTER.bool (JSVal.bool false) = "0" := by decide
      rw [h0]
      exact eq_comm

/-- Witness for the amended C5 at the safe integer `-17`. -/
theorem c5_amended_round_trip_witness :
    ((-17 : ℤ).natAbs < 2 ^ 53) ∧
    FORMATTER.int (JSVal.num (PARSER.int (JSVal.str (intToString (-17))))) =
      intToString (-17) :=
  ⟨by decide, c5_amended_round_trip.1 (-17) (by decide)⟩

/-- C6 counterexample: at the sentinel `'-'` the temperature parse gives
`null`, the formatter renders that `null` as the string `'null'`, and
re-parsing yields `NaN`, so `parse(format(parse('-'))) ≠ parse('-')`. -/
theorem c6_counterexample_sentinel :
    PARSER.temperature (JSVal.str "-") = none ∧
    FORMATTER.temperature (tempToJSVal (PARSER.temperature (JSVal.str "-"))) = "null" ∧
    PARSER.temperature (JSVal.str (FORMATTER.temperature
      (tempToJSVal (PARSER.temperature (JSVal.str "-"))))) = some JsNum.nan ∧
    some JsNum.nan ≠ (none : Option JsNum) := by
  refine ⟨by decide, by decide, by decide, by decide⟩

/-- C6 amended: for every input whose temperature parse is non-`null`,
one format/parse cycle preserves the parse result (numbers compared by
value, `NaN` with `NaN`); at `null` and the sentinels `'-'`, `'--'` the
cycle instead turns `null` into `NaN` because format writes `null` as
the string `'null'`. -/
theorem c6_amended_idempotence (v : JSVal) (h : PARSER.temperature v ≠ none) :
    (PARSER.temperature (JSVal.str (FORMATTER.temperature
      (tempToJSVal (PARSER.temperature v))))).map jsNumVal =
    (PARSER.temperature v).map jsNumVal := by
  cases hv : PARSER.temperature v with
  | none => exact absurd hv h
  | some q =>
    cases q with
    | nan => decide
    | dec m t =>
      have h1 : PARSER.temperature (JSVal.num (JsNum.dec m t)) =
          some (JsNum.dec (stripDec m t).1 (stripDec m t).2) := by
        rw [PARSER.temperature, if_neg (by simp [looseNullB])]
        rw [jsToString, parseFloatList_numToString]
      have h2 : FORMATTER.temperature (JSVal.num (JsNum.dec m t)) =
          numToString (JsNum.dec m t) := by
        rw [FORMATTER.temperature, h1]
        show numToString (JsNum.dec (stripDec m t).1 (stripDec m t).2) =
          numToString (JsNum.dec m t)
        exact numToString_strip m t
      have hnd := numToString_ne_dash m t
      have h3 : PARSER.temperature (JSVal.str (numToString (JsNum.dec m t))) =
          some (JsNum.dec (stripDec m t).1 (stripDec m t).2) := by
        rw [PARSER.temperature, if_neg (by simp [looseNullB, hnd.1, hnd.2])]
        rw [jsToString, parseFloatList_numToString]
      show (PARSER.temperature (JSVal.str (FORMATTER.temperature
        (JSVal.num (JsNum.dec m t))))).map jsNumVal = (some (JsNum.dec m t)).map jsNumVal
      rw [h2, h3]
      simp only [Option.map_some', jsNumVal, stripDec_val]

/-- Witness for the amended C6 at the input `24.50`. -/
theorem c6_amended_idempotence_witness :
    PARSER.temperature (JSVal.str "24.50") ≠ none ∧
    (PARSER.temperature (JSVal.str (FORMATTER.temperature
      (tempToJSVal (PARSER.temperature (JSVal.str "24.50")))))).map jsNumVal =
    (PARSER.temperature (JSVal.str "24.50")).map jsNumVal :=
  ⟨by decide, c6_amended_idempotence (JSVal.str "24.50") (by decide)⟩

theorem decodePairs_cases (parts : List String) :
    decodePairs parts = .error .uriError ∨ ∃ r, decodePairs parts = .ok r := by
  rw [decodePairs]
  cases mapMO (fun s => mapMO decodeURIComponentJS (splitEq s)) parts with
  | none => exact Or.inl rfl
  | some decoded => exact Or.inr ⟨_, rfl⟩

/-- C3: for every payload whose first comma-separated part begins with
`ret=`, decoding fails with `invalidParameters` exactly when the status
token is `PARAM NG`, with `advancedError` exactly when it is `ADV_NG`,
with `unknownStatus` exactly when it is any other token different from
`OK`, and a record is produced only when the token is exactly `OK`. -/
theorem c3_status_taxonomy (body : String)
    (h : strStartsWith ((splitComma body).headD "") "ret=" = true) :
    (decodeResponse body = .error .invalidParameters ↔
      strDrop ((splitComma body).headD "") 4 = "PARAM NG") ∧
    (decodeResponse body = .error .advancedError ↔
      strDrop ((splitComma body).headD "") 4 = "ADV_NG") ∧
    (decodeResponse body = .error (.unknownStatus (strDrop ((splitComma body).headD "") 4)) ↔
      (strDrop ((splitComma body).headD "") 4 ≠ "PARAM NG" ∧
       strDrop ((splitComma body).headD "") 4 ≠ "ADV_NG" ∧
       strDrop ((splitComma body).headD "") 4 ≠ "OK")) ∧
    (isOkE (decodeResponse body) = true → strDrop ((splitComma body).headD "") 4 = "OK") := by
  cases hs : splitComma body with
  | nil =>
    rw [hs] at h
    simp only [List.headD_nil] at h
    exact absurd h (by decide)
  | cons first rest =>
    rw [hs] at h
    simp only [List.headD_cons] at h
    simp only [List.headD_cons]
    simp only [decodeResponse, hs, if_pos h]
    by_cases h1 : strDrop first 4 = "PARAM NG"
    · rw [if_pos h1, h1]
      refine ⟨by simp, by simp, by simp, by simp [isOkE]⟩
    · rw [if_neg h1]
      by_cases h2 : strDrop first 4 = "ADV_NG"
      · rw [if_pos h2, h2]
        refine ⟨by simp, by simp, by simp, by simp [isOkE]⟩
      · rw [if_neg h2]
        by_cases h3 : strDrop first 4 = "OK"
        · rw [if_neg (by simp [h3]), h3]
          rcases decodePairs_cases rest with hp | ⟨r, hp⟩ <;> rw [hp]
          · refine ⟨by simp, by simp, by simp, by simp [isOkE]⟩
          · refine ⟨by simp, by simp, by simp, fun _ => rfl⟩
        · rw [if_pos h3]
          refine ⟨by simp [h1], by simp [h2], ?_, by simp [isOkE]⟩
          simp [h1, h2, h3]

/-- Witness for C3 at a payload with an unrecognized status token. -/
theorem c3_status_taxonomy_witness :
    strStartsWith ((splitComma "ret=WEIRD,x=1").headD "") "ret=" = true ∧
    ((decodeResponse "ret=WEIRD,x=1" = .error .invalidParameters ↔
      strDrop ((splitComma "ret=WEIRD,x=1").headD "") 4 = "PARAM NG") ∧
    (decodeResponse "ret=WEIRD,x=1" = .error .advancedError ↔
      strDrop ((splitComma "ret=WEIRD,x=1").headD "") 4 = "ADV_NG") ∧
    (decodeResponse "ret=WEIRD,x=1" =
        .error (.unknownStatus (strDrop ((splitComma "ret=WEIRD,x=1").headD "") 4)) ↔
      (strDrop ((splitComma "ret=WEIRD,x=1").headD "") 4 ≠ "PARAM NG" ∧
       strDrop ((splitComma "ret=WEIRD,x=1").headD "") 4 ≠ "ADV_NG" ∧
       strDrop ((splitComma "ret=WEIRD,x=1").headD "") 4 ≠ "OK")) ∧
    (isOkE (decodeResponse "ret=WEIRD,x=1") = true →
      strDrop ((splitComma "ret=WEIRD,x=1").headD "") 4 = "OK")) :=
  ⟨by decide, c3_status_taxonomy "ret=WEIRD,x=1" (by decide)⟩

/-- C1: when the current-state fetch succeeds, `set_control_info`
submits exactly the record obtained by copying the six fields `pow`,
`mode`, `stemp`, `shum`, `f_rate`, `f_dir` from the current raw state
and then overwriting with every key of the formatted change set: for
every key, the submitted value is the formatted caller value when the
key is in the change set (caller wins on overlap, keys outside the six
included), otherwise the current value for the six copied fields, and
absent otherwise. -/
theorem c1_merge_preserves_unchanged (host : String) (device : Device) (changes : JsRec)
    (current : JsRec) (k : String) (hh : host ≠ "")
    (hc : (send_request host device "GET" "/aircon/get_control_info" none).1 = .ok current)
    (hnd : (recKeys changes).Nodup) :
    (set_control_info host device changes).2 =
      [("/aircon/get_control_info", none),
       ("/aircon/set_control_info",
         some (objAssign (minimalState current) (format_control_info changes)))] ∧
    List.lookup k (objAssign (minimalState current) (format_control_info changes)) =
      optOr (List.lookup k (format_control_info changes))
        (if k ∈ sixFields then some (getKey current k) else none) := by
  have hndf : (recKeys (format_control_info changes)).Nodup := by
    rw [format_control_info, recKeys_format_data]
    exact hnd
  constructor
  · have hlog : ∀ url p, (send_request host device "GET" url p).2 = [(url, p)] := by
      intro url p
      simp only [send_request, if_neg hh]
      rw [if_neg (by simp)]
      cases device url p <;> rfl
    simp only [set_control_info, hc]
    rw [hlog, hlog]
    rfl
  · rw [lookup_objAssign _ _ _ hndf, lookup_minimalState]

/-- Witness for C1: current state with six fields, change set touching
only `stemp`; the preserved field `pow` keeps its current value. -/
theorem c1_merge_preserves_unchanged_witness :
    ("h" : String) ≠ "" ∧
    (send_request "h"
      (fun url _ => if url = "/aircon/get_control_info"
        then .ok "ret=OK,pow=1,mode=3,stemp=24.0,shum=0,f_rate=A,f_dir=0"
        else .ok "ret=OK") "GET" "/aircon/get_control_info" none).1 =
      .ok [("pow", JSVal.str "1"), ("mode", JSVal.str "3"), ("stemp", JSVal.str "24.0"),
        ("shum", JSVal.str "0"), ("f_rate", JSVal.str "A"), ("f_dir", JSVal.str "0")] ∧
    (recKeys [("stemp", JSVal.num (JsNum.dec 26 0))]).Nodup ∧
    ((set_control_info "h"
      (fun url _ => if url = "/aircon/get_control_info"
        then .ok "ret=OK,pow=1,mode=3,stemp=24.0,shum=0,f_rate=A,f_dir=0"
        else .ok "ret=OK") [("stemp", JSVal.num (JsNum.dec 26 0))]).2 =
      [("/aircon/get_control_info", none),
       ("/aircon/set_control_info",
         some (objAssign
           (minimalState [("pow", JSVal.str "1"), ("mode", JSVal.str "3"),
             ("stemp", JSVal.str "24.0"), ("shum", JSVal.str "0"),
             ("f_rate", JSVal.str "A"), ("f_dir", JSVal.str "0")])
           (format_control_info [("stemp", JSVal.num (JsNum.dec 26 0))])))] ∧
    List.lookup "pow"
        (objAssign
          (minimalState [("pow", JSVal.str "1"), ("mode", JSVal.str "3"),
            ("stemp", JSVal.str "24.0"), ("shum", JSVal.str "0"),
            ("f_rate", JSVal.str "A"), ("f_dir", JSVal.str "0")])
          (format_control_info [("stemp", JSVal.num (JsNum.dec 26 0))])) =
      optOr (List.lookup "pow" (format_control_info [("stemp", JSVal.num (JsNum.dec 26 0))]))
        (if "pow" ∈ sixFields
          then some (getKey [("pow", JSVal.str "1"), ("mode", JSVal.str "3"),
            ("stemp", JSVal.str "24.0"), ("shum", JSVal.str "0"),
            ("f_rate", JSVal.str "A"), ("f_dir", JSVal.str "0")] "pow")
          else none)) :=
  ⟨by decide, by decide, by decide,
    c1_merge_preserves_unchanged "h"
      (fun url _ => if url = "/aircon/get_control_info"
        then .ok "ret=OK,pow=1,mode=3,stemp=24.0,shum=0,f_rate=A,f_dir=0"
        else .ok "ret=OK")
      [("stemp", JSVal.num (JsNum.dec 26 0))]
      [("pow", JSVal.str "1"), ("mode", JSVal.str "3"), ("stemp", JSVal.str "24.0"),
        ("shum", JSVal.str "0"), ("f_rate", JSVal.str "A"), ("f_dir", JSVal.str "0")]
      "pow" (by decide) (by decide) (by decide)⟩
